import Mathlib

set_option maxRecDepth 8192

/-! Shallow embedding of the reconciliation and state persistence engine of
galaxy-plugin-local-repo, file src/galaxy_local_repo/local_repo.py.  Python
dicts become association lists in insertion order, Python sets become
deduplicated lists compared by membership, the uuid4 generator becomes a
counter supply producing distinct fresh strings, and a raised exception
becomes an Option PyErr value that aborts the rest of the work while keeping
the side effects already performed.  The asyncio sleeps are pure delays with
no observable effect on the modelled state and are dropped. -/

/-- Exceptions the embedded code can raise. -/
inductive PyErr
  | jsonDecodeError
  | keyError (k : String)
  | fileNotFoundError
  | typeError
deriving DecidableEq, Repr

/-- galaxy.api.consts.LicenseType, reduced to the one member the plugin uses. -/
inductive LicenseType
  | SinglePurchase
deriving DecidableEq, Repr

/-- galaxy.api.types.LicenseInfo as constructed by get_games. -/
structure LicenseInfo where
  license_type : LicenseType
deriving DecidableEq, Repr

/-- The LocalRepoGame dataclass: the Game base fields the plugin passes
(game_id, game_title, dlcs, license_info) plus the subclass fields.  The
field compatible_os is declared List in the dataclass, but get_games stores
the result of metadata.get, which is None when the key is absent, so the
modelled field is Option valued. -/
structure LocalRepoGame where
  game_id : String
  game_title : String
  dlcs : Option (List String)
  license_info : LicenseInfo
  location : String
  installer : Option String
  installed : Bool := false
  running : Bool := false
  image_files : List (Option String) := []
  compatible_os : Option (List (Option String)) := some []
deriving DecidableEq, Repr

/-- OS_MAP.get os (OSCompatibility 0): OSCompatibility is an IntFlag carrying
one bit each for Windows, MacOS and Linux; any entry outside the map
contributes the zero default. -/
def osMapGet : Option String → Nat
  | some s =>
    if s = "windows" then 1 else if s = "mac" then 2 else if s = "linux" then 4 else 0
  | none => 0

/-- LocalRepoGame.get_os_compatibility: fold the OS bits over compatible_os
and return None when the mask is zero.  Iterating a None field would raise
TypeError in Python, modelled as the error case. -/
def LocalRepoGame.get_os_compatibility (g : LocalRepoGame) :
    Except PyErr (Option Nat) :=
  match g.compatible_os with
  | none => .error .typeError
  | some l =>
    let compatibility := l.foldl (fun acc os => acc ||| osMapGet os) 0
    .ok (if compatibility ≠ 0 then some compatibility else none)

/-- Shape of one serialized game entry as produced by GameEncoder.default. -/
structure EncodedGame where
  title : String
  location : String
  installer : Option String
  image_files : List (Option String)
  compatible_os : Option (List (Option String))
  installed : Bool
deriving DecidableEq, Repr

/-- GameEncoder.default on a LocalRepoGame value. -/
def GameEncoder.default (g : LocalRepoGame) : EncodedGame :=
  { title := g.game_title
    location := g.location
    installer := g.installer
    image_files := g.image_files
    compatible_os := g.compatible_os
    installed := g.installed }

/-- Python dict from identifier to record, in insertion order with unique
keys maintained by the operations below. -/
abbrev Snapshot := List (String × LocalRepoGame)

/-- Keys of the dict in order. -/
def dictKeys (m : Snapshot) : List String := m.map Prod.fst

/-- Values of the dict in order, list(d.values()). -/
def dictValues (m : Snapshot) : List LocalRepoGame := m.map Prod.snd

/-- Lookup d.get(k) returning none when absent. -/
def dictGet? (m : Snapshot) (k : String) : Option LocalRepoGame :=
  match m.find? (fun p => p.1 = k) with
  | some p => some p.2
  | none => none

/-- Membership test k in d. -/
def dictContains (m : Snapshot) (k : String) : Bool :=
  m.any (fun p => p.1 = k)

/-- Assignment d[k] = v: update in place when the key exists, else append,
matching the insertion order semantics of Python dicts. -/
def dictSet (m : Snapshot) (k : String) (v : LocalRepoGame) : Snapshot :=
  if dictContains m k then m.map (fun p => if p.1 = k then (k, v) else p)
  else m ++ [(k, v)]

/-- Deletion del d[k]. -/
def dictDel (m : Snapshot) (k : String) : Snapshot :=
  m.filter (fun p => p.1 ≠ k)

/-- Serialization of the whole catalog as json.dump with cls GameEncoder
writes it: one entry per key in order. -/
def encodeSnapshot (m : Snapshot) : List (String × EncodedGame) :=
  m.map (fun p => (p.1, GameEncoder.default p.2))

/-- Contents of the persisted cache file local_repo.json: empty after the
initial touch, or the serialization of a full snapshot after a dump. -/
inductive CacheContent
  | empty
  | snapshot (entries : List (String × EncodedGame))
deriving DecidableEq, Repr

/-- Whether the cache file still holds an entry for the given identifier. -/
def CacheContent.containsId (c : CacheContent) (k : String) : Bool :=
  match c with
  | .empty => false
  | .snapshot es => es.any (fun p => p.1 = k)

/-- LOCAL_REPO_DIR as a Windows path string; in the Python literal the
backslashes are literal characters. -/
def LOCAL_REPO_DIR : String := "Z:\\Jeux\\Dépôt local"

/-- Joining a directory and a relative name with the Windows separator, as
pathlib does for these WindowsPath values. -/
def pathJoin (a b : String) : String := a ++ "\\" ++ b

/-- LocalRepoGame.full_installer_path: location joined with installer; only
evaluated by install_game when installer is a nonempty string. -/
def LocalRepoGame.full_installer_path (g : LocalRepoGame) : String :=
  pathJoin g.location (g.installer.getD "")

/-- Parsed contents of a game.json descriptor file: each optional key is
modelled as an Option field, title may be absent. -/
structure Descriptor where
  uuid : Option String
  title : Option String
  installer_file : Option String
  image_files : Option (List (Option String))
  compatible_os : Option (List (Option String))
deriving DecidableEq, Repr

/-- State of a game.json file on disk: json.load either fails or yields a
parsed descriptor. -/
inductive DescriptorFile
  | malformed
  | parsed (d : Descriptor)
deriving DecidableEq, Repr

/-- One immediate child of the repository root: its name, whether it is a
directory, and the state of its game.json file when present. -/
structure DirEntry where
  name : String
  isDir : Bool
  descriptor : Option DescriptorFile
deriving DecidableEq, Repr

/-- The repository root: whether LOCAL_REPO_DIR exists (iterdir raises
FileNotFoundError otherwise) and its children in iteration order. -/
structure Filesystem where
  rootExists : Bool
  entries : List DirEntry
deriving DecidableEq, Repr

/-- The uuid4 supply: the n-th fresh identifier drawn by a scan. -/
def freshUuid (n : Nat) : String := "uuid-" ++ toString n

/-- Python truthiness of the value metadata.get applied to the uuid key:
None and the empty string are falsy. -/
def uuidTruthy : Option String → Bool
  | none => false
  | some s => !(s == "")

/-- Descriptor after metadata with the uuid key set to u. -/
def descriptorWithUuid (d : Descriptor) (u : String) : Descriptor :=
  { d with uuid := some u }

/-- Write-back json.dump of an updated descriptor into the game.json of the
directory with the given name. -/
def fsWriteDescriptor (fs : Filesystem) (name : String) (d : Descriptor) :
    Filesystem :=
  { fs with
    entries := fs.entries.map (fun e =>
      if e.name = name && e.isDir then { e with descriptor := some (.parsed d) }
      else e) }

/-- The LocalRepoGame value get_games constructs from one descriptor. -/
def mkGameRecord (game_uuid : String) (t : String) (name : String)
    (d : Descriptor) : LocalRepoGame :=
  { game_id := game_uuid
    game_title := t
    dlcs := none
    license_info := ⟨.SinglePurchase⟩
    location := pathJoin LOCAL_REPO_DIR name
    installer := d.installer_file
    installed := false
    running := false
    image_files := d.image_files.getD []
    compatible_os := d.compatible_os }

/-- The portion of the plugin state that get_games reads and writes. -/
structure ScanState where
  fs : Filesystem
  repo_metadata : Snapshot
  uuidSupply : Nat
deriving DecidableEq, Repr

/-- Body of the get_games loop for a single directory entry: skip files and
directories without game.json, raise JSONDecodeError on a malformed
descriptor, back-fill a generated uuid when the stored one is falsy, raise
KeyError when title is absent, otherwise store the record under its uuid. -/
def scanDir (st : ScanState) (e : DirEntry) : ScanState × Option PyErr :=
  if e.isDir then
    match e.descriptor with
    | none => (st, none)
    | some .malformed => (st, some .jsonDecodeError)
    | some (.parsed d) =>
      let step :=
        if uuidTruthy d.uuid then (d.uuid.getD "", st)
        else
          let u := freshUuid st.uuidSupply
          (u, { st with
                  fs := fsWriteDescriptor st.fs e.name (descriptorWithUuid d u)
                  uuidSupply := st.uuidSupply + 1 })
      match d.title with
      | none => (step.2, some (.keyError "title"))
      | some t =>
        ({ step.2 with
             repo_metadata :=
               dictSet step.2.repo_metadata step.1 (mkGameRecord step.1 t e.name d) },
         none)
  else (st, none)

/-- The get_games loop over the directory listing; a raised exception stops
the loop, keeping the side effects made so far. -/
def scanEntries : ScanState → List DirEntry → ScanState × Option PyErr
  | st, [] => (st, none)
  | st, e :: rest =>
    match scanDir st e with
    | (st1, none) => scanEntries st1 rest
    | (st1, some err) => (st1, some err)

/-- LocalRepoPlugin.get_games: iterdir raises when the root is missing;
otherwise scan every entry and return list(self.repo_metadata.values()) of
the updated catalog.  Note the scan only ever adds or overwrites entries of
repo_metadata, it never deletes one. -/
def get_games (st : ScanState) : ScanState × Except PyErr (List LocalRepoGame) :=
  if st.fs.rootExists then
    match scanEntries st st.fs.entries with
    | (st1, none) => (st1, .ok (dictValues st1.repo_metadata))
    | (st1, some err) => (st1, .error err)
  else (st, .error .fileNotFoundError)

/-- Full mutable state of LocalRepoPlugin that the modelled methods touch. -/
structure PluginState where
  fs : Filesystem
  uuidSupply : Nat
  repo_metadata : Snapshot
  previous_repo_metadata : Snapshot
  cacheFile : CacheContent
  new_game_task_running : Bool
  installed_task_running : Bool
deriving DecidableEq, Repr

/-- Projection of the plugin state onto what get_games uses. -/
def toScanState (s : PluginState) : ScanState :=
  ⟨s.fs, s.repo_metadata, s.uuidSupply⟩

/-- Merge the result of a scan back into the plugin state. -/
def withScanState (s : PluginState) (st : ScanState) : PluginState :=
  { s with fs := st.fs, repo_metadata := st.repo_metadata, uuidSupply := st.uuidSupply }

/-- Host notifications emitted by add_game and remove_game. -/
inductive Notification
  | add (g : LocalRepoGame)
  | remove (g : LocalRepoGame)
deriving DecidableEq, Repr

/-- Result of running one task body: final state, emitted notifications in
order, and the exception that escaped, if any. -/
structure TaskResult where
  state : PluginState
  notifications : List Notification
  raised : Option PyErr
deriving DecidableEq, Repr

/-- Python set difference a - b on id sets, as a deduplicated list. -/
def listDiff (a b : List String) : List String :=
  a.dedup.filter (fun x => !(b.contains x))

/-- Python symmetric difference a ^ b on id sets. -/
def listSymmDiff (a b : List String) : List String :=
  listDiff a b ++ listDiff b a

/-- Python set equality set(a) == set(b). -/
def setEqBool (a b : List String) : Bool :=
  a.all (fun x => b.contains x) && b.all (fun x => a.contains x)

/-- The add loop of check_for_new_games: for each id, look the record up in
repo_metadata (a missing key would raise KeyError) and emit add_game. -/
def emitAdds (m : Snapshot) : List String → List Notification × Option PyErr
  | [] => ([], none)
  | i :: rest =>
    match dictGet? m i with
    | some g => (.add g :: (emitAdds m rest).1, (emitAdds m rest).2)
    | none => ([], some (.keyError i))

/-- The remove loop of check_for_new_games: for each id, emit remove_game on
a copy of the record, then delete it from repo_metadata. -/
def emitRemoves (m : Snapshot) : List String → Snapshot × List Notification × Option PyErr
  | [] => (m, [], none)
  | i :: rest =>
    match dictGet? m i with
    | some g =>
      ((emitRemoves (dictDel m i) rest).1,
       .remove g :: (emitRemoves (dictDel m i) rest).2.1,
       (emitRemoves (dictDel m i) rest).2.2)
    | none => (m, [], some (.keyError i))

/-- LocalRepoPlugin.check_for_new_games.  A set guard flag drops the tick.
Otherwise the flag is set, the catalog is rescanned, and when the id sets
before and after differ the diff loops run and the catalog is dumped to the
cache file.  The early return on equal id sets leaves the guard flag set,
exactly as the Python return statement skips running.clear, and an escaping
exception also leaves it set.  Python iterates the diff sets in unspecified
order; the model fixes the order of listSymmDiff and listDiff, which is
observationally complete for the membership level properties proved below. -/
def check_for_new_games (s : PluginState) : TaskResult :=
  if s.new_game_task_running then ⟨s, [], none⟩
  else
    let s0 : PluginState := { s with new_game_task_running := true }
    let ids_before := (dictValues s0.repo_metadata).map (fun g => g.game_id)
    match get_games (toScanState s0) with
    | (st, .error err) => ⟨withScanState s0 st, [], some err⟩
    | (st, .ok games_after) =>
      let s1 := withScanState s0 st
      let ids_after := games_after.map (fun g => g.game_id)
      if setEqBool ids_after ids_before then ⟨s1, [], none⟩
      else
        let new_game_ids := listSymmDiff ids_before ids_after
        let removed_game_ids := listDiff ids_before ids_after
        match emitAdds s1.repo_metadata new_game_ids with
        | (addNs, some err) => ⟨s1, addNs, some err⟩
        | (addNs, none) =>
          match emitRemoves s1.repo_metadata removed_game_ids with
          | (m2, remNs, some err) =>
            ⟨{ s1 with repo_metadata := m2 }, addNs ++ remNs, some err⟩
          | (m2, remNs, none) =>
            let s2 := { s1 with repo_metadata := m2 }
            let any_change := !new_game_ids.isEmpty || !removed_game_ids.isEmpty
            let s3 :=
              if any_change then
                { s2 with cacheFile := .snapshot (encodeSnapshot s2.repo_metadata) }
              else s2
            ⟨{ s3 with new_game_task_running := false }, addNs ++ remNs, none⟩

/-- Field by field copy of one record, the effect of copy.deepcopy on a
LocalRepoGame dataclass whose fields are immutable values. -/
def copyGame (g : LocalRepoGame) : LocalRepoGame :=
  { game_id := g.game_id
    game_title := g.game_title
    dlcs := g.dlcs
    license_info := g.license_info
    location := g.location
    installer := g.installer
    installed := g.installed
    running := g.running
    image_files := g.image_files
    compatible_os := g.compatible_os }

/-- copy.deepcopy of the whole catalog dict. -/
def deepCopySnapshot (m : Snapshot) : Snapshot :=
  m.map (fun p => (p.1, copyGame p.2))

/-- Lexicographic comparison of character lists by code point, the order
Python uses to compare the string sort keys. -/
def charsLe : List Char → List Char → Bool
  | [], _ => true
  | _ :: _, [] => false
  | a :: as, b :: bs =>
    if a.val < b.val then true else if b.val < a.val then false else charsLe as bs

/-- String comparison by code point sequence. -/
def strLe (a b : String) : Bool := charsLe a.data b.data

/-- Insertion step of sorting records by game_id, the key function used by
the sorted calls of check_for_installed. -/
def insertByGameId (g : LocalRepoGame) : List LocalRepoGame → List LocalRepoGame
  | [] => [g]
  | h :: t =>
    if strLe g.game_id h.game_id then g :: h :: t else h :: insertByGameId g t

/-- sorted(l, key on game_id); Python uses a stable sort, and only equality
of the two sorted lists is ever consumed. -/
def sortByGameId : List LocalRepoGame → List LocalRepoGame
  | [] => []
  | h :: t => insertByGameId h (sortByGameId t)

/-- LocalRepoPlugin.check_for_installed.  A set guard flag drops the tick;
otherwise previous_repo_metadata becomes a deep copy of repo_metadata, the
installed records of the catalog are compared against those of that fresh
copy, the cache file is dumped when they differ, and the guard clears.  The
unawaited asyncio.sleep has no effect. -/
def check_for_installed (s : PluginState) : PluginState :=
  if s.installed_task_running then s
  else
    let s0 : PluginState := { s with installed_task_running := true }
    let s1 : PluginState :=
      { s0 with previous_repo_metadata := deepCopySnapshot s0.repo_metadata }
    let s2 : PluginState :=
      if sortByGameId ((dictValues s1.repo_metadata).filter (fun g => g.installed))
          ≠ sortByGameId ((dictValues s1.previous_repo_metadata).filter (fun g => g.installed))
      then { s1 with cacheFile := .snapshot (encodeSnapshot s1.repo_metadata) }
      else s1
    { s2 with installed_task_running := false }

/-- Outcome of the installer child process: exit code and captured output. -/
structure ProcResult where
  returncode : Int
  stdout : String
  stderr : String
deriving DecidableEq, Repr

/-- Events written through logging.debug by install_game. -/
inductive LogEvent
  | exited (cmd : String) (returncode : Int)
  | stdoutLog (text : String)
  | stderrLog (text : String)
deriving DecidableEq, Repr

/-- LocalRepoPlugin.install_game.  Look the record up (KeyError when the id
is unknown), return silently when installer is falsy, otherwise run the
installer, log its exit code, set installed on exit code zero, and log any
captured output.  The method performs no cache file write and requests no
persist. -/
def install_game (s : PluginState) (game_id : String) (proc : ProcResult) :
    PluginState × List LogEvent × Option PyErr :=
  match dictGet? s.repo_metadata game_id with
  | none => (s, [], some (.keyError game_id))
  | some game =>
    match game.installer with
    | none => (s, [], none)
    | some inst =>
      if inst = "" then (s, [], none)
      else
        let cmd := game.full_installer_path
        let s1 :=
          if proc.returncode = 0 then
            { s with
                repo_metadata :=
                  dictSet s.repo_metadata game_id { game with installed := true } }
          else s
        let logs :=
          [LogEvent.exited cmd proc.returncode]
            ++ (if proc.stdout ≠ "" then [LogEvent.stdoutLog proc.stdout] else [])
            ++ (if proc.stderr ≠ "" then [LogEvent.stderrLog proc.stderr] else [])
        (s1, logs, none)

/-- Observable contents of the cache file while check_for_new_games runs
json.dump on a handle opened with mode w: the open truncates the file to
empty, then the serialized text is written sequentially, so an interruption
can expose any prefix of the new text, starting with the empty file.  The
old text is destroyed at the truncation. -/
def persistWriteStates (newText : String) : List String :=
  (List.range (newText.data.length + 1)).map (fun k => String.mk (newText.data.take k))

/-- A string obtainable by truncating the new text after some count of
characters. -/
def IsTruncationPrefix (s newText : String) : Prop :=
  ∃ k, s = String.mk (newText.data.take k)

/-- Invariant maintained by the catalog dict: every stored record carries its
own key as game_id. -/
def SnapInv (m : Snapshot) : Prop := ∀ p ∈ m, p.2.game_id = p.1

/-- Diff and notification contract of one reconciliation run from state s
whose scan returned games_after: writing P for the ids of the catalog before
the run and C for the ids of the freshly returned scan, the computed added
set is exactly C minus P, the computed removed set is exactly P minus C, the
two are disjoint, and add respectively remove notifications are emitted for
exactly those ids. -/
def ReconcilerDiffSpec (s : PluginState) (games_after : List LocalRepoGame) : Prop :=
  let P := (dictValues s.repo_metadata).map (fun g => g.game_id)
  let C := games_after.map (fun g => g.game_id)
  (∀ x, x ∈ listSymmDiff P C ↔ (x ∈ C ∧ x ∉ P)) ∧
  (∀ x, x ∈ listDiff P C ↔ (x ∈ P ∧ x ∉ C)) ∧
  (∀ x, ¬(x ∈ listSymmDiff P C ∧ x ∈ listDiff P C)) ∧
  (∀ x, (∃ g, Notification.add g ∈ (check_for_new_games s).notifications ∧ g.game_id = x)
        ↔ (x ∈ C ∧ x ∉ P)) ∧
  (∀ x, (∃ g, Notification.remove g ∈ (check_for_new_games s).notifications ∧ g.game_id = x)
        ↔ (x ∈ P ∧ x ∉ C))

/-- Abort behavior of the scan at a bad directory entry e followed by rest:
a malformed descriptor raises JSONDecodeError and a parsed descriptor with a
truthy uuid but no title raises KeyError; in both cases the state is
unchanged and rest is never scanned. -/
def ScanAbortSpec (st : ScanState) (e : DirEntry) (d : Descriptor)
    (rest : List DirEntry) : Prop :=
  (e.descriptor = some .malformed →
    scanEntries st (e :: rest) = (st, some .jsonDecodeError)) ∧
  (e.descriptor = some (.parsed d) → d.title = none → uuidTruthy d.uuid = true →
    scanEntries st (e :: rest) = (st, some (.keyError "title")))

/-- Descriptor of directory GameA, uuid already present. -/
def descA : Descriptor := ⟨some "id-a", some "Game A", none, none, none⟩

/-- Directory GameA with a well formed descriptor. -/
def entryA : DirEntry := ⟨"GameA", true, some (.parsed descA)⟩

/-- Descriptor of directory GameB, uuid already present. -/
def descB : Descriptor := ⟨some "id-b", some "Game B", none, none, none⟩

/-- Directory GameB with a well formed descriptor. -/
def entryB : DirEntry := ⟨"GameB", true, some (.parsed descB)⟩

/-- The record the scan builds for GameA. -/
def gameA : LocalRepoGame := mkGameRecord "id-a" "Game A" "GameA" descA

/-- Plugin state in which GameA is cataloged and persisted but its directory
has been deleted from disk before the next scan. -/
def stateAfterDeleteA : PluginState :=
  { fs := ⟨true, []⟩
    uuidSupply := 0
    repo_metadata := [("id-a", gameA)]
    previous_repo_metadata := []
    cacheFile := .snapshot [("id-a", GameEncoder.default gameA)]
    new_game_task_running := false
    installed_task_running := false }

/-- Plugin state in which GameA is cataloged and still on disk, nothing
having changed since the previous scan. -/
def steadyState : PluginState :=
  { fs := ⟨true, [entryA]⟩
    uuidSupply := 0
    repo_metadata := [("id-a", gameA)]
    previous_repo_metadata := []
    cacheFile := .snapshot [("id-a", GameEncoder.default gameA)]
    new_game_task_running := false
    installed_task_running := false }

/-- Plugin state at first startup: empty catalog, GameA on disk with its
uuid already stored in the descriptor. -/
def sampleFreshState : PluginState :=
  { fs := ⟨true, [entryA]⟩
    uuidSupply := 0
    repo_metadata := []
    previous_repo_metadata := []
    cacheFile := .empty
    new_game_task_running := false
    installed_task_running := false }

/-- Scan state produced by get_games from sampleFreshState. -/
def sampleScannedState : ScanState :=
  ⟨⟨true, [entryA]⟩, [("id-a", gameA)], 0⟩

/-- Directory A scanning cleanly before the malformed one. -/
def entryGood : DirEntry := ⟨"A", true, some (.parsed ⟨some "ua", some "A", none, none, none⟩)⟩

/-- Directory B whose game.json does not parse. -/
def entryBad : DirEntry := ⟨"B", true, some .malformed⟩

/-- Directory C, valid, listed after the malformed one. -/
def entryAfterBad : DirEntry := ⟨"C", true, some (.parsed ⟨some "uc", some "C", none, none, none⟩)⟩

/-- Scan state over a root holding a valid directory, then a corrupt one,
then another valid one. -/
def scanStateBad : ScanState := ⟨⟨true, [entryGood, entryBad, entryAfterBad]⟩, [], 0⟩

/-- Scan state whose repository root does not exist while the catalog holds
a previously discovered game. -/
def stNoRoot : ScanState := ⟨⟨false, []⟩, [("id-a", gameA)], 0⟩

/-- Descriptor of a fresh directory that has a title but no uuid yet. -/
def descNoUuid : Descriptor := ⟨none, some "Game A", none, none, none⟩

/-- Directory GameA before its first scan ever. -/
def entryNoUuid : DirEntry := ⟨"GameA", true, some (.parsed descNoUuid)⟩

/-- Scan state of the very first scan of a root holding only entryNoUuid. -/
def stFirstScan : ScanState := ⟨⟨true, [entryNoUuid]⟩, [], 0⟩

/-- A cataloged game carrying an installer file, not yet installed. -/
def gameWithInstaller : LocalRepoGame :=
  mkGameRecord "g1" "Game One" "GameOne" ⟨some "g1", some "Game One", some "setup.cmd", none, none⟩

/-- Plugin state from which install_game is invoked for gameWithInstaller. -/
def installStartState : PluginState :=
  { fs := ⟨true, []⟩
    uuidSupply := 0
    repo_metadata := [("g1", gameWithInstaller)]
    previous_repo_metadata := []
    cacheFile := .snapshot [("g1", GameEncoder.default gameWithInstaller)]
    new_game_task_running := false
    installed_task_running := false }

/-- A record whose compatible_os holds one recognized and one unrecognized
entry. -/
def gameOsMixed : LocalRepoGame :=
  { game_id := "os1"
    game_title := "Game Os"
    dlcs := none
    license_info := ⟨.SinglePurchase⟩
    location := "Z:\\Jeux\\GameOs"
    installer := none
    installed := false
    running := false
    image_files := []
    compatible_os := some [some "windows", some "amiga"] }

/-- Round trip contract of identifier assignment for one directory entry e
carrying parsed descriptor d with a falsy uuid and title t: scanning from st
assigns the next fresh identifier, writes it back into the descriptor on
disk, stores the record under it with matching game_id, and a later scan of
the written back directory from any state st2 reuses exactly the same
identifier without another descriptor write or supply draw. -/
def IdRoundtripSpec (st st2 : ScanState) (e : DirEntry) (d : Descriptor)
    (t : String) : Prop :=
  scanDir st e =
    ({ fs := fsWriteDescriptor st.fs e.name (descriptorWithUuid d (freshUuid st.uuidSupply))
       repo_metadata := dictSet st.repo_metadata (freshUuid st.uuidSupply)
         (mkGameRecord (freshUuid st.uuidSupply) t e.name d)
       uuidSupply := st.uuidSupply + 1 }, none) ∧
  (mkGameRecord (freshUuid st.uuidSupply) t e.name d).game_id = freshUuid st.uuidSupply ∧
  scanDir st2
      { e with descriptor := some (.parsed (descriptorWithUuid d (freshUuid st.uuidSupply))) } =
    ({ st2 with
         repo_metadata := dictSet st2.repo_metadata (freshUuid st.uuidSupply)
           (mkGameRecord (freshUuid st.uuidSupply) t e.name
             (descriptorWithUuid d (freshUuid st.uuidSupply))) }, none)

theorem contains_iff_mem (l : List String) (x : String) :
    l.contains x = true ↔ x ∈ l := by
  induction l with
  | nil => simp
  | cons h t ih => simp [List.contains, List.elem_cons]

theorem mem_listDiff (a b : List String) (x : String) :
    x ∈ listDiff a b ↔ (x ∈ a ∧ x ∉ b) := by
  simp [listDiff, List.mem_filter, List.mem_dedup, contains_iff_mem]

theorem mem_listSymmDiff (a b : List String) (x : String) :
    x ∈ listSymmDiff a b ↔ ((x ∈ a ∧ x ∉ b) ∨ (x ∈ b ∧ x ∉ a)) := by
  simp [listSymmDiff, List.mem_append, mem_listDiff]

theorem listDiff_eq_nil (a b : List String) (h : ∀ x ∈ a, x ∈ b) :
    listDiff a b = [] := by
  simp only [listDiff, List.filter_eq_nil_iff]
  intro x hx
  simp [contains_iff_mem, h x (List.mem_dedup.mp hx)]

theorem setEqBool_iff (a b : List String) :
    setEqBool a b = true ↔ (∀ x, x ∈ a ↔ x ∈ b) := by
  simp only [setEqBool, Bool.and_eq_true, List.all_eq_true, contains_iff_mem]
  constructor
  · rintro ⟨h1, h2⟩ x
    exact ⟨fun hx => h1 x hx, fun hx => h2 x hx⟩
  · intro h
    exact ⟨fun x hx => (h x).mp hx, fun x hx => (h x).mpr hx⟩

theorem dictContains_iff_mem (m : Snapshot) (k : String) :
    dictContains m k = true ↔ k ∈ dictKeys m := by
  induction m with
  | nil => simp [dictContains, dictKeys]
  | cons p t ih =>
    simp only [dictContains, dictKeys, List.any_cons, List.map_cons, List.mem_cons,
      Bool.or_eq_true, decide_eq_true_eq] at *
    constructor
    · rintro (h | h)
      · exact Or.inl h.symm
      · exact Or.inr (ih.mp h)
    · rintro (h | h)
      · exact Or.inl h.symm
      · exact Or.inr (ih.mpr h)

theorem dictGet?_eq_some_of_mem (m : Snapshot) (k : String)
    (h : k ∈ dictKeys m) : ∃ g, dictGet? m k = some g := by
  induction m with
  | nil => simp [dictKeys] at h
  | cons p t ih =>
    simp only [dictKeys, List.map_cons, List.mem_cons] at h
    by_cases hk : p.1 = k
    · exact ⟨p.2, by simp [dictGet?, List.find?_cons, hk]⟩
    · rcases h with h | h
      · exact absurd h.symm hk
      · rcases ih h with ⟨g, hg⟩
        refine ⟨g, ?_⟩
        simpa [dictGet?, List.find?_cons, hk] using hg

theorem dictGet?_game_id (m : Snapshot) (k : String) (g : LocalRepoGame)
    (hinv : SnapInv m) (h : dictGet? m k = some g) : g.game_id = k := by
  induction m with
  | nil => simp [dictGet?] at h
  | cons p t ih =>
    by_cases hk : p.1 = k
    · simp [dictGet?, List.find?_cons, hk] at h
      have := hinv p (List.mem_cons_self p t)
      rw [← h, this, hk]
    · simp only [dictGet?, List.find?_cons] at h
      rw [decide_eq_false hk] at h
      exact ih (fun q hq => hinv q (List.mem_cons_of_mem p hq)) h

theorem keyOfSet (k : String) (v : LocalRepoGame) (p : String × LocalRepoGame) :
    (if p.1 = k then (k, v) else p).1 = p.1 := by
  by_cases h : p.1 = k
  · simp [h]
  · simp [h]

theorem mem_keys_dictSet (m : Snapshot) (k : String) (v : LocalRepoGame)
    (j : String) (h : j ∈ dictKeys m) : j ∈ dictKeys (dictSet m k v) := by
  unfold dictSet
  by_cases hc : dictContains m k
  · rw [if_pos hc]
    simp only [dictKeys, List.map_map] at *
    have : (fun p => ((if p.1 = k then (k, v) else p) : String × LocalRepoGame).1)
        = fun p : String × LocalRepoGame => p.1 := by
      funext p
      exact keyOfSet k v p
    simpa [Function.comp, keyOfSet] using h
  · rw [if_neg hc]
    simp only [dictKeys, List.map_append] at *
    exact List.mem_append_left _ h

theorem mem_keys_dictSet_self (m : Snapshot) (k : String) (v : LocalRepoGame) :
    k ∈ dictKeys (dictSet m k v) := by
  unfold dictSet
  by_cases hc : dictContains m k
  · rw [if_pos hc]
    have hk := (dictContains_iff_mem m k).mp hc
    simp only [dictKeys, List.mem_map] at hk ⊢
    rcases hk with ⟨p, hp, hpk⟩
    refine ⟨(k, v), ?_, rfl⟩
    have hmem := List.mem_map_of_mem
      (fun p : String × LocalRepoGame => if p.1 = k then (k, v) else p) hp
    simpa [hpk] using hmem
  · rw [if_neg hc]
    simp [dictKeys]

theorem snapInv_dictSet (m : Snapshot) (k : String) (v : LocalRepoGame)
    (hm : SnapInv m) (hv : v.game_id = k) : SnapInv (dictSet m k v) := by
  unfold dictSet
  by_cases hc : dictContains m k
  · rw [if_pos hc]
    intro p hp
    simp only [List.mem_map] at hp
    rcases hp with ⟨q, hq, rfl⟩
    by_cases hqk : q.1 = k
    · simp [hqk, hv]
    · simp only [if_neg hqk]
      exact hm q hq
  · rw [if_neg hc]
    intro p hp
    rcases List.mem_append.mp hp with h | h
    · exact hm p h
    · simp only [List.mem_singleton] at h
      subst h
      exact hv

theorem uuidTruthy_freshUuid (n : Nat) : uuidTruthy (some (freshUuid n)) = true := by
  simp only [uuidTruthy, Bool.not_eq_true', beq_eq_false_iff_ne, ne_eq]
  intro h
  have hlen := congrArg String.length h
  simp [freshUuid, String.length_append] at hlen
  exact absurd hlen.1 (by decide)

theorem scanDir_keys_mono (st : ScanState) (e : DirEntry) (k : String)
    (h : k ∈ dictKeys st.repo_metadata) :
    k ∈ dictKeys (scanDir st e).1.repo_metadata := by
  rcases e with ⟨name, isDir, desc⟩
  cases isDir with
  | false => simpa [scanDir] using h
  | true =>
    cases desc with
    | none => simpa [scanDir] using h
    | some df =>
      cases df with
      | malformed => simpa [scanDir] using h
      | parsed d =>
        cases htitle : d.title with
        | none =>
          by_cases hu : uuidTruthy d.uuid <;> simp [scanDir, htitle, hu] <;> exact h
        | some t =>
          by_cases hu : uuidTruthy d.uuid <;> simp [scanDir, htitle, hu] <;>
            exact mem_keys_dictSet _ _ _ _ h

theorem scanDir_snapInv (st : ScanState) (e : DirEntry)
    (hinv : SnapInv st.repo_metadata) :
    SnapInv (scanDir st e).1.repo_metadata := by
  rcases e with ⟨name, isDir, desc⟩
  cases isDir with
  | false => simpa [scanDir] using hinv
  | true =>
    cases desc with
    | none => simpa [scanDir] using hinv
    | some df =>
      cases df with
      | malformed => simpa [scanDir] using hinv
      | parsed d =>
        cases htitle : d.title with
        | none =>
          by_cases hu : uuidTruthy d.uuid <;> simp [scanDir, htitle, hu] <;> exact hinv
        | some t =>
          by_cases hu : uuidTruthy d.uuid <;> simp [scanDir, htitle, hu] <;>
            exact snapInv_dictSet _ _ _ hinv rfl

theorem scanEntries_keys_mono (entries : List DirEntry) :
    ∀ st : ScanState, ∀ k ∈ dictKeys st.repo_metadata,
      k ∈ dictKeys (scanEntries st entries).1.repo_metadata := by
  induction entries with
  | nil => intro st k h; simpa [scanEntries] using h
  | cons e rest ih =>
    intro st k h
    have h1 := scanDir_keys_mono st e k h
    rcases hsd : scanDir st e with ⟨st1, err⟩
    rw [hsd] at h1
    cases err with
    | none => simpa [scanEntries, hsd] using ih st1 k h1
    | some er => simpa [scanEntries, hsd] using h1

theorem scanEntries_snapInv (entries : List DirEntry) :
    ∀ st : ScanState, SnapInv st.repo_metadata →
      SnapInv (scanEntries st entries).1.repo_metadata := by
  induction entries with
  | nil => intro st h; simpa [scanEntries] using h
  | cons e rest ih =>
    intro st h
    have h1 := scanDir_snapInv st e h
    rcases hsd : scanDir st e with ⟨st1, err⟩
    rw [hsd] at h1
    cases err with
    | none => simpa [scanEntries, hsd] using ih st1 h1
    | some er => simpa [scanEntries, hsd] using h1

theorem get_games_ok (st st1 : ScanState) (games : List LocalRepoGame)
    (h : get_games st = (st1, Except.ok games)) :
    games = dictValues st1.repo_metadata ∧
    (∀ k ∈ dictKeys st.repo_metadata, k ∈ dictKeys st1.repo_metadata) ∧
    (SnapInv st.repo_metadata → SnapInv st1.repo_metadata) := by
  unfold get_games at h
  by_cases hr : st.fs.rootExists
  · rw [if_pos hr] at h
    rcases hse : scanEntries st st.fs.entries with ⟨st2, err⟩
    rw [hse] at h
    cases err with
    | none =>
      simp only [Prod.mk.injEq, Except.ok.injEq] at h
      rcases h with ⟨h1, h2⟩
      subst h1
      refine ⟨h2.symm, ?_, ?_⟩
      · intro k hk
        have := scanEntries_keys_mono st.fs.entries st k hk
        rwa [hse] at this
      · intro hinv
        have := scanEntries_snapInv st.fs.entries st hinv
        rwa [hse] at this
    | some er => simp at h
  · rw [if_neg hr] at h
    simp at h

theorem emitAdds_spec (m : Snapshot) (hinv : SnapInv m) (ids : List String)
    (hall : ∀ i ∈ ids, i ∈ dictKeys m) :
    (emitAdds m ids).2 = none ∧
    (∀ x, (∃ g, Notification.add g ∈ (emitAdds m ids).1 ∧ g.game_id = x) ↔ x ∈ ids) ∧
    (∀ g, Notification.remove g ∉ (emitAdds m ids).1) := by
  induction ids with
  | nil =>
    refine ⟨rfl, ?_, ?_⟩
    · intro x
      simp [emitAdds]
    · intro g
      simp [emitAdds]
  | cons i rest ih =>
    have hi : i ∈ dictKeys m := hall i (List.mem_cons_self i rest)
    rcases dictGet?_eq_some_of_mem m i hi with ⟨g, hg⟩
    have hgid : g.game_id = i := dictGet?_game_id m i g hinv hg
    have hrest := ih (fun j hj => hall j (List.mem_cons_of_mem i hj))
    rcases hrest with ⟨he, hiff, hnorem⟩
    refine ⟨?_, ?_, ?_⟩
    · simp [emitAdds, hg, he]
    · intro x
      simp only [emitAdds, hg, List.mem_cons]
      constructor
      · rintro ⟨g2, hg2, hid⟩
        rcases hg2 with h | h
        · left
          have : g2 = g := by injection h
          rw [← hid, this, hgid]
        · right
          exact (hiff x).mp ⟨g2, h, hid⟩
      · rintro (h | h)
        · exact ⟨g, Or.inl rfl, by rw [hgid, h]⟩
        · rcases (hiff x).mpr h with ⟨g2, hg2, hid⟩
          exact ⟨g2, Or.inr hg2, hid⟩
    · intro g2
      simp only [emitAdds, hg, List.mem_cons]
      rintro (h | h)
      · cases h
      · exact hnorem g2 h


theorem values_map_game_id (m : Snapshot) (hinv : SnapInv m) :
    (dictValues m).map (fun g => g.game_id) = dictKeys m := by
  induction m with
  | nil => rfl
  | cons p t ih =>
    simp only [dictValues, dictKeys, List.map_cons] at ih ⊢
    rw [hinv p (List.mem_cons_self p t)]
    exact congrArg (List.cons p.1)
      (ih (fun q hq => hinv q (List.mem_cons_of_mem p hq)))

theorem check_for_new_games_notifs (s : PluginState) (st : ScanState)
    (games_after : List LocalRepoGame)
    (hguard : s.new_game_task_running = false)
    (hscan : get_games (toScanState s) = (st, Except.ok games_after))
    (haddok : (emitAdds st.repo_metadata
        (listSymmDiff ((dictValues s.repo_metadata).map (fun g => g.game_id))
                      (games_after.map (fun g => g.game_id)))).2 = none)
    (hremnil : listDiff ((dictValues s.repo_metadata).map (fun g => g.game_id))
                        (games_after.map (fun g => g.game_id)) = []) :
    (check_for_new_games s).notifications =
      if setEqBool (games_after.map (fun g => g.game_id))
                   ((dictValues s.repo_metadata).map (fun g => g.game_id))
      then []
      else (emitAdds st.repo_metadata
        (listSymmDiff ((dictValues s.repo_metadata).map (fun g => g.game_id))
                      (games_after.map (fun g => g.game_id)))).1 := by
  unfold check_for_new_games
  rw [if_neg (show ¬(s.new_game_task_running = true) from by simp [hguard])]
  dsimp only
  rw [show toScanState { s with new_game_task_running := true } = toScanState s from rfl]
  rw [hscan]
  dsimp only [withScanState]
  rw [hremnil]
  by_cases hset : setEqBool (games_after.map (fun g => g.game_id))
      ((dictValues s.repo_metadata).map (fun g => g.game_id)) = true
  · rw [if_pos hset, if_pos hset]
  · rw [if_neg hset, if_neg hset]
    rcases hea : emitAdds st.repo_metadata
        (listSymmDiff ((dictValues s.repo_metadata).map (fun g => g.game_id))
                      (games_after.map (fun g => g.game_id))) with ⟨addNs, err⟩
    rw [hea] at haddok
    dsimp only at haddok
    subst haddok
    rw [hea]
    dsimp only [emitRemoves]
    simp

/-- C1.  For a run of check_for_new_games from a state whose guard is clear
and whose scan completes, with P the ids of the previous snapshot and C the
ids of the freshly scanned snapshot returned by get_games, the computed diff
sets equal C minus P and P minus C, they are disjoint, and add and remove
notifications are emitted for exactly those sets of ids. -/
theorem c1_reconciliation_diff_and_notifications (s : PluginState) (st : ScanState)
    (games_after : List LocalRepoGame)
    (hguard : s.new_game_task_running = false)
    (hinv : SnapInv s.repo_metadata)
    (hscan : get_games (toScanState s) = (st, Except.ok games_after)) :
    ReconcilerDiffSpec s games_after := by
  obtain ⟨hgames, hmono, hinvmap⟩ := get_games_ok (toScanState s) st games_after hscan
  have hinv1 : SnapInv st.repo_metadata := hinvmap hinv
  have hP : (dictValues s.repo_metadata).map (fun g => g.game_id)
      = dictKeys s.repo_metadata := values_map_game_id s.repo_metadata hinv
  have hC : games_after.map (fun g => g.game_id) = dictKeys st.repo_metadata := by
    rw [hgames]
    exact values_map_game_id st.repo_metadata hinv1
  have hPC : ∀ x, x ∈ (dictValues s.repo_metadata).map (fun g => g.game_id) →
      x ∈ games_after.map (fun g => g.game_id) := by
    intro x hx
    rw [hC]
    rw [hP] at hx
    exact hmono x hx
  set P := (dictValues s.repo_metadata).map (fun g => g.game_id) with hPdef
  set C := games_after.map (fun g => g.game_id) with hCdef
  have hdiff1 : ∀ x, x ∈ listSymmDiff P C ↔ (x ∈ C ∧ x ∉ P) := by
    intro x
    rw [mem_listSymmDiff]
    constructor
    · rintro (⟨h1, h2⟩ | h)
      · exact absurd (hPC x h1) h2
      · exact h
    · exact fun h => Or.inr h
  have hdiff2 : ∀ x, x ∈ listDiff P C ↔ (x ∈ P ∧ x ∉ C) := fun x => mem_listDiff P C x
  have hremnil : listDiff P C = [] := listDiff_eq_nil P C hPC
  have hsub : ∀ i ∈ listSymmDiff P C, i ∈ dictKeys st.repo_metadata := by
    intro i hi
    have hm := (hdiff1 i).mp hi
    rw [← hC]
    exact hm.1
  obtain ⟨haddok, haddiff, hnorem⟩ :=
    emitAdds_spec st.repo_metadata hinv1 (listSymmDiff P C) hsub
  have hnotifs := check_for_new_games_notifs s st games_after hguard hscan haddok hremnil
  refine ⟨hdiff1, hdiff2, ?_, ?_, ?_⟩
  · rintro x ⟨hx1, hx2⟩
    exact absurd ((hdiff2 x).mp hx2).1 ((hdiff1 x).mp hx1).2
  · intro x
    rw [hnotifs]
    by_cases hset : setEqBool C P = true
    · rw [if_pos hset]
      have hiffPC := (setEqBool_iff C P).mp hset
      simp only [List.not_mem_nil, false_and, exists_false, false_iff]
      rintro ⟨h1, h2⟩
      exact h2 ((hiffPC x).mp h1)
    · rw [if_neg hset]
      exact (haddiff x).trans (hdiff1 x)
  · intro x
    rw [hnotifs]
    constructor
    · rintro ⟨g, hgmem, hid⟩
      by_cases hset : setEqBool C P = true
      · rw [if_pos hset] at hgmem
        cases hgmem
      · rw [if_neg hset] at hgmem
        exact absurd hgmem (hnorem g)
    · rintro ⟨h1, h2⟩
      exact absurd (hPC x h1) h2

/-- Witness instantiating the C1 theorem at a concrete startup state whose
scan discovers GameA. -/
theorem c1_reconciliation_diff_and_notifications_witness :
    ReconcilerDiffSpec sampleFreshState [gameA] :=
  c1_reconciliation_diff_and_notifications sampleFreshState sampleScannedState [gameA]
    rfl (fun p hp => absurd hp (List.not_mem_nil p)) rfl

/-- C2.  Evaluation at the deleted directory scenario: GameA is cataloged
and persisted, its directory is gone from disk, yet the reconciliation run
completes without emitting any remove notification, the catalog keeps the
record, and the cache file still contains its id.  The cause is that
get_games returns the merged contents of repo_metadata, so the id set never
shrinks and removed_game_ids is always empty. -/
theorem c2_deleted_directory_never_removed :
    (check_for_new_games stateAfterDeleteA).raised = none ∧
    (check_for_new_games stateAfterDeleteA).notifications = [] ∧
    (check_for_new_games stateAfterDeleteA).state.repo_metadata = [("id-a", gameA)] ∧
    (check_for_new_games stateAfterDeleteA).state.cacheFile.containsId "id-a" = true := by
  decide

/-- C3 counterexample: with a valid directory A, then a corrupt descriptor
in B, then a valid directory C, the scan raises JSONDecodeError instead of
skipping B; A was recorded but C was never reached, so a single corrupt
descriptor does abort the whole scan. -/
theorem c3_counterexample_scan_aborts :
    (get_games scanStateBad).2 = Except.error PyErr.jsonDecodeError ∧
    dictContains (get_games scanStateBad).1.repo_metadata "ua" = true ∧
    dictContains (get_games scanStateBad).1.repo_metadata "uc" = false :=
  ⟨rfl, rfl, rfl⟩

/-- C3 amended: a directory whose descriptor file is present but unparsable
makes get_games raise JSONDecodeError, and a parsable descriptor with a
stored uuid but no title makes it raise KeyError; in both cases the scan
state is unchanged and the remaining directories are never scanned. -/
theorem c3_amended_bad_descriptor_aborts_scan (st : ScanState) (e : DirEntry)
    (d : Descriptor) (rest : List DirEntry) (hdir : e.isDir = true) :
    ScanAbortSpec st e d rest := by
  constructor
  · intro hmal
    simp [scanEntries, scanDir, hdir, hmal]
  · intro hparsed htitle hu
    simp [scanEntries, scanDir, hdir, hparsed, htitle, hu]

/-- Witness instantiating the amended C3 theorem at the corrupt descriptor
of directory B. -/
theorem c3_amended_bad_descriptor_aborts_scan_witness :
    ScanAbortSpec scanStateBad entryBad descA [entryAfterBad] :=
  c3_amended_bad_descriptor_aborts_scan scanStateBad entryBad descA [entryAfterBad] rfl

/-- C4 counterexample: when the repository root does not exist the scan does
not return an empty snapshot, it raises FileNotFoundError. -/
theorem c4_counterexample_missing_root_raises :
    (get_games stNoRoot).2 = Except.error PyErr.fileNotFoundError ∧
    (get_games stNoRoot).2 ≠ Except.ok [] := by
  refine ⟨rfl, ?_⟩
  intro h
  rw [show (get_games stNoRoot).2 = Except.error PyErr.fileNotFoundError from rfl] at h
  exact Except.noConfusion h

/-- C4 amended: a scan over a missing repository root raises
FileNotFoundError out of iterdir and leaves the scan state untouched. -/
theorem c4_amended_missing_root_raises (st : ScanState)
    (h : st.fs.rootExists = false) :
    get_games st = (st, Except.error PyErr.fileNotFoundError) := by
  unfold get_games
  rw [h]
  simp

/-- Witness instantiating the amended C4 theorem at a missing root with a
nonempty catalog. -/
theorem c4_amended_missing_root_raises_witness :
    get_games stNoRoot = (stNoRoot, Except.error PyErr.fileNotFoundError) :=
  c4_amended_missing_root_raises stNoRoot rfl

/-- C5.  A package directory whose descriptor parses but has a falsy uuid
receives the next fresh identifier on first scan: the identifier is written
back into the descriptor file, the in-memory record is stored under it and
carries it as game_id, and a second scan of the unmodified directory, from
any state, reuses exactly the same identifier without rewriting the
descriptor or drawing from the supply. -/
theorem c5_identifier_roundtrip_stability (st st2 : ScanState) (e : DirEntry)
    (d : Descriptor) (t : String) (hdir : e.isDir = true)
    (hdesc : e.descriptor = some (.parsed d))
    (huuid : uuidTruthy d.uuid = false)
    (htitle : d.title = some t) :
    IdRoundtripSpec st st2 e d t := by
  refine ⟨?_, rfl, ?_⟩
  · simp [scanDir, hdir, hdesc, huuid, htitle]
  · simp [scanDir, hdir, descriptorWithUuid, uuidTruthy_freshUuid, htitle]

/-- Witness instantiating the C5 theorem at the first scan of a GameA
directory whose descriptor has a title and no uuid. -/
theorem c5_identifier_roundtrip_stability_witness :
    IdRoundtripSpec stFirstScan stFirstScan entryNoUuid descNoUuid "Game A" :=
  c5_identifier_roundtrip_stability stFirstScan stFirstScan entryNoUuid descNoUuid
    "Game A" rfl rfl rfl rfl

/-- C6.  Evaluation of install_game on a package with installer setup.cmd:
an exit code of zero flips installed to true in memory, but no persist is
requested anywhere: install_game leaves the cache file untouched and even a
following run of the install state check task writes nothing, because that
task compares the catalog against its own fresh deep copy.  A nonzero exit
code leaves the whole state unchanged and logs the exit code and the
captured output. -/
theorem c6_install_flips_flag_but_never_persists :
    (install_game installStartState "g1" ⟨0, "ok", ""⟩).1.repo_metadata =
      [("g1", { gameWithInstaller with installed := true })] ∧
    (install_game installStartState "g1" ⟨0, "ok", ""⟩).1.cacheFile =
      installStartState.cacheFile ∧
    (install_game installStartState "g1" ⟨0, "ok", ""⟩).2.1 =
      [LogEvent.exited gameWithInstaller.full_installer_path 0, LogEvent.stdoutLog "ok"] ∧
    (check_for_installed (install_game installStartState "g1" ⟨0, "ok", ""⟩).1).cacheFile =
      installStartState.cacheFile ∧
    (install_game installStartState "g1" ⟨1, "", "boom"⟩).1 = installStartState ∧
    (install_game installStartState "g1" ⟨1, "", "boom"⟩).2.1 =
      [LogEvent.exited gameWithInstaller.full_installer_path 1, LogEvent.stderrLog "boom"] := by
  decide

/-- C7.  Evaluation of the guard around check_for_new_games: a run over an
unchanged catalog completes without an exception yet leaves the guard flag
set, because the early return on equal id sets skips the clear; a later
tick, taken after GameB has appeared on disk, is then dropped outright with
no notifications and no state change, so the completed first run does not
return the guard to the idle state. -/
theorem c7_guard_not_cleared_after_completion :
    (check_for_new_games steadyState).raised = none ∧
    (check_for_new_games steadyState).state.new_game_task_running = true ∧
    (check_for_new_games
        { (check_for_new_games steadyState).state with
            fs := ⟨true, [entryA, entryB]⟩ }).notifications = [] ∧
    (check_for_new_games
        { (check_for_new_games steadyState).state with
            fs := ⟨true, [entryA, entryB]⟩ }).state =
      { (check_for_new_games steadyState).state with fs := ⟨true, [entryA, entryB]⟩ } := by
  decide

/-- C8 counterexample: during a persist that replaces the serialized text
old-cache-text with new-cache-text, the empty file is one of the observable
on-disk states, and it is neither the complete old text nor the complete new
text, so the write is not an atomic replacement. -/
theorem c8_counterexample_interrupted_write :
    "" ∈ persistWriteStates "new-cache-text" ∧
    ("" : String) ≠ "old-cache-text" ∧ ("" : String) ≠ "new-cache-text" := by
  decide

/-- C8 amended: the persist opens the cache file in write mode, which
truncates it in place, and writes the new serialization sequentially, so
every state observable after an interruption is a truncation prefix of the
new text; the old snapshot is destroyed at the truncation rather than kept
until a rename. -/
theorem c8_amended_interrupted_write_is_prefix (content s : String)
    (h : s ∈ persistWriteStates content) : IsTruncationPrefix s content := by
  simp only [persistWriteStates, List.mem_map, List.mem_range] at h
  rcases h with ⟨k, hk, rfl⟩
  exact ⟨k, rfl⟩

/-- Witness instantiating the amended C8 theorem at a two character
truncation state of the new text. -/
theorem c8_amended_interrupted_write_is_prefix_witness :
    IsTruncationPrefix "ne" "new-cache-text" :=
  c8_amended_interrupted_write_is_prefix "new-cache-text" "ne" (by decide)

/-- C9.  An entry of compatible_os outside the fixed enumeration windows,
mac, linux contributes nothing to the computed compatibility mask, while the
record and its serialized cache entry keep the entry verbatim. -/
theorem c9_unknown_os_ignored_in_mask_retained_in_storage (g : LocalRepoGame)
    (l1 l2 : List (Option String)) (x : Option String)
    (hw : x ≠ some "windows") (hm : x ≠ some "mac") (hl : x ≠ some "linux")
    (hos : g.compatible_os = some (l1 ++ x :: l2)) :
    g.get_os_compatibility =
      LocalRepoGame.get_os_compatibility { g with compatible_os := some (l1 ++ l2) } ∧
    (GameEncoder.default g).compatible_os = some (l1 ++ x :: l2) := by
  have hx : osMapGet x = 0 := by
    cases x with
    | none => rfl
    | some s =>
      simp only [osMapGet]
      rw [if_neg (fun h => hw (by rw [h])), if_neg (fun h => hm (by rw [h])),
          if_neg (fun h => hl (by rw [h]))]
  have hfold : (l1 ++ x :: l2).foldl (fun acc os => acc ||| osMapGet os) 0
      = (l1 ++ l2).foldl (fun acc os => acc ||| osMapGet os) 0 := by
    rw [List.foldl_append, List.foldl_append, List.foldl_cons, hx]
    simp
  constructor
  · unfold LocalRepoGame.get_os_compatibility
    rw [hos]
    dsimp only
    rw [hfold]
  · simp [GameEncoder.default, hos]

/-- Witness instantiating the C9 theorem at a record listing windows and an
unrecognized amiga entry. -/
theorem c9_unknown_os_ignored_in_mask_retained_in_storage_witness :
    gameOsMixed.get_os_compatibility =
      LocalRepoGame.get_os_compatibility
        { gameOsMixed with compatible_os := some [some "windows"] } ∧
    (GameEncoder.default gameOsMixed).compatible_os =
      some [some "windows", some "amiga"] :=
  c9_unknown_os_ignored_in_mask_retained_in_storage gameOsMixed [some "windows"] []
    (some "amiga") (by decide) (by decide) (by decide) rfl

theorem copyGame_eq (g : LocalRepoGame) : copyGame g = g := rfl

theorem deepCopySnapshot_eq (m : Snapshot) : deepCopySnapshot m = m := by
  unfold deepCopySnapshot
  simp [copyGame_eq]

/-- C10.  The install state check task never writes the cache file and
leaves the catalog unchanged: when the guard is set the whole state is
untouched, and otherwise the only mutations are previous_repo_metadata,
which becomes the deep copy of the catalog, and the guard flag, which ends
clear; the persist branch compares the installed records of the catalog
against those of that same fresh deep copy and is therefore unreachable. -/
theorem c10_installed_check_never_persists (s : PluginState) :
    (s.installed_task_running = true → check_for_installed s = s) ∧
    (s.installed_task_running = false →
      check_for_installed s =
        { s with previous_repo_metadata := deepCopySnapshot s.repo_metadata }) ∧
    (check_for_installed s).cacheFile = s.cacheFile ∧
    (check_for_installed s).repo_metadata = s.repo_metadata := by
  by_cases hrun : s.installed_task_running = true
  · have hfix : check_for_installed s = s := by
      unfold check_for_installed
      rw [if_pos hrun]
    exact ⟨fun _ => hfix, fun hf => absurd hrun (by simp [hf]),
      by rw [hfix], by rw [hfix]⟩
  · have hfalse : s.installed_task_running = false := by
      cases h : s.installed_task_running
      · rfl
      · exact absurd h hrun
    have heval : check_for_installed s =
        { s with previous_repo_metadata := deepCopySnapshot s.repo_metadata } := by
      unfold check_for_installed
      rw [if_neg hrun]
      dsimp only
      rw [deepCopySnapshot_eq]
      rw [if_neg (by simp)]
      rw [hfalse]
    exact ⟨fun ht => absurd ht hrun, fun _ => heval, by rw [heval], by rw [heval]⟩

/-- Witness instantiating the C10 theorem at the steady catalog state. -/
theorem c10_installed_check_never_persists_witness :
    check_for_installed steadyState =
      { steadyState with
          previous_repo_metadata := deepCopySnapshot steadyState.repo_metadata } :=
  (c10_installed_check_never_persists steadyState).2.1 rfl
